import Mathlib

/-!
Shallow embedding of the GalPot disk/spheroid/multipole code of the Agama
repository (header `galPot.h`, implementation modelled from the design
specification where the translation unit is absent), together with the
`getVesc` helper of `galaxymodel_base.cpp`, and proofs of the stated
properties of these routines.
-/

noncomputable section

namespace GalPot

/-- Cylindrical position (R, z, phi), mirroring `coord::PosCyl`. -/
structure PosCyl where
  R : ℝ
  z : ℝ
  phi : ℝ

/-- Cartesian position (x, y, z), mirroring `coord::PosCar`. -/
structure PosCar where
  x : ℝ
  y : ℝ
  z : ℝ

/-- Spherical position (r, theta, phi), mirroring `coord::PosSph`. -/
structure PosSph where
  r : ℝ
  theta : ℝ
  phi : ℝ

/-- Gradient of a scalar field in cylindrical coordinates, mirroring `coord::GradCyl`. -/
structure GradCyl where
  dR : ℝ
  dz : ℝ
  dphi : ℝ

/-- Hessian of a scalar field in cylindrical coordinates, mirroring `coord::HessCyl`. -/
structure HessCyl where
  dR2 : ℝ
  dz2 : ℝ
  dphi2 : ℝ
  dRdz : ℝ
  dRdphi : ℝ
  dzdphi : ℝ

/-- Two-argument arctangent, as the C `atan2(y,x)` used by the coordinate
conversions: the angle of the point (x,y) in (-pi, pi]. -/
def atan2 (y x : ℝ) : ℝ :=
  if 0 < x then Real.arctan (y / x)
  else if x < 0 then
    (if 0 ≤ y then Real.arctan (y / x) + Real.pi else Real.arctan (y / x) - Real.pi)
  else
    (if 0 < y then Real.pi / 2 else if y < 0 then -(Real.pi / 2) else 0)

/-- Modelled from the spec: `coord::toPosCyl` for Cartesian input (the file
`coord.h` is not among the provided sources).  The standard conversion:
R is the distance from the polar axis, z is kept, phi is the azimuth. -/
def toPosCylCar (p : PosCar) : PosCyl :=
  { R := Real.sqrt (p.x ^ 2 + p.y ^ 2), z := p.z, phi := atan2 p.y p.x }

/-- Modelled from the spec: `coord::toPosCyl` for spherical input (the file
`coord.h` is not among the provided sources inputs).  The standard conversion:
R = r sin(theta), z = r cos(theta), phi is kept. -/
def toPosCylSph (p : PosSph) : PosCyl :=
  { R := p.r * Real.sin p.theta, z := p.r * Real.cos p.theta, phi := p.phi }

/-- Parameters of one disk component, mirroring `potential::DiskParam`. -/
structure DiskParam where
  surfaceDensity : ℝ
  scaleLength : ℝ
  scaleHeight : ℝ
  innerCutoffRadius : ℝ
  modulationAmplitude : ℝ

/-- Parameters of one spheroidal component, mirroring `potential::SphrParam`.
The field `q` is the axis ratio (named after the symbol q (z/R) used in the
header; it is the second field of the C++ struct). -/
structure SphrParam where
  densityNorm : ℝ
  q : ℝ
  gamma : ℝ
  beta : ℝ
  scaleRadius : ℝ
  outerCutoffRadius : ℝ

/-- Exponent of the disk radial surface-density law:
g(R) = -R0/R - R/Rd + eps*cos(R/Rd).  Helper for `diskf`. -/
def diskg (p : DiskParam) (R : ℝ) : ℝ :=
  -p.innerCutoffRadius / R - R / p.scaleLength
    + p.modulationAmplitude * Real.cos (R / p.scaleLength)

/-- Derivative of `diskg` (for R > 0). -/
def diskgp (p : DiskParam) (R : ℝ) : ℝ :=
  p.innerCutoffRadius / R ^ 2 - 1 / p.scaleLength
    - p.modulationAmplitude / p.scaleLength * Real.sin (R / p.scaleLength)

/-- Second derivative of `diskg` (for R > 0). -/
def diskgpp (p : DiskParam) (R : ℝ) : ℝ :=
  -2 * p.innerCutoffRadius / R ^ 3
    - p.modulationAmplitude / p.scaleLength ^ 2 * Real.cos (R / p.scaleLength)

/-- Modelled from the spec: the disk radial function
f(R) = Sigma0 * exp(-R0/R - R/Rd + eps*cos(R/Rd)) of section 4.1
(the translation unit `galpot.cpp` defining it is not among the sources).
At R = 0 the value is the analytic limit: 0 when an inner cutoff is present
(the -R0/R term diverges to -infinity), Sigma0*exp(eps) otherwise. -/
def diskf (p : DiskParam) (R : ℝ) : ℝ :=
  if R = 0 then
    (if p.innerCutoffRadius = 0 then p.surfaceDensity * Real.exp p.modulationAmplitude
     else 0)
  else p.surfaceDensity * Real.exp (diskg p R)

/-- Modelled from the spec: first derivative of the disk radial function,
f'(R) = f(R) * g'(R) (at R = 0 this expression again yields the analytic
limit, since division by zero evaluates to zero in this embedding). -/
def diskfp (p : DiskParam) (R : ℝ) : ℝ :=
  diskf p R * diskgp p R

/-- Modelled from the spec: second derivative of the disk radial function,
f''(R) = f(R) * (g'(R)^2 + g''(R)). -/
def diskfpp (p : DiskParam) (R : ℝ) : ℝ :=
  diskf p R * (diskgp p R ^ 2 + diskgpp p R)

/-- Sign function used by the vertical profiles, as C `math::sign`. -/
def sgn (x : ℝ) : ℝ :=
  if 0 < x then 1 else if x < 0 then -1 else 0

/-- Modelled from the spec: H(z), the second antiderivative of the vertical
profile h(z), per profile family of section 4.1 / Dehnen & Binney (1998)
Table 2, normalised so that H(0) = 0:
for h = 0 (thin disk) H(z) = |z|/2; for h > 0 (exponential)
H(z) = |z|/2 + (h/2)(exp(-|z|/h) - 1); for h < 0 (isothermal)
H(z) = |h| * log(cosh(z/(2|h|))). -/
def diskH (h z : ℝ) : ℝ :=
  if h = 0 then |z| / 2
  else if 0 < h then |z| / 2 + h / 2 * (Real.exp (-|z| / h) - 1)
  else -h * Real.log (Real.cosh (z / (2 * h)))

/-- Modelled from the spec: H'(z), the first antiderivative of h(z)
(derivative of `diskH`): sgn(z)/2, sgn(z)(1-exp(-|z|/h))/2, or
tanh(z/(2|h|))/2 for the three families. -/
def diskHp (h z : ℝ) : ℝ :=
  if h = 0 then sgn z / 2
  else if 0 < h then sgn z * (1 - Real.exp (-|z| / h)) / 2
  else Real.tanh (z / (2 * h)) / (-2)

/-- Modelled from the spec: the vertical density profile h(z) of section 4.1:
exp(-|z|/h)/(2h) for h > 0, sech^2(z/(2|h|))/(4|h|) for h < 0; for h = 0 the
profile is a Dirac distribution in z, represented here by its value away from
the plane (zero), as a pointwise function cannot carry the delta mass. -/
def diskh (h z : ℝ) : ℝ :=
  if h = 0 then 0
  else if 0 < h then Real.exp (-|z| / h) / (2 * h)
  else 1 / (4 * -h * Real.cosh (z / (2 * h)) ^ 2)

/-- A 1D function with two derivatives, mirroring the `math::IFunction`
interface through which the disk classes consume their radial and vertical
functions. -/
structure IFunction where
  val : ℝ → ℝ
  der : ℝ → ℝ
  der2 : ℝ → ℝ

/-- Modelled from the spec: `createRadialDiskFnc` packages the radial law
f and its two derivatives. -/
def createRadialDiskFnc (p : DiskParam) : IFunction :=
  { val := diskf p, der := diskfp p, der2 := diskfpp p }

/-- Modelled from the spec: `createVerticalDiskFnc` packages the vertical
data in the GalPot convention: value H(z), first derivative H'(z), second
derivative h(z). -/
def createVerticalDiskFnc (p : DiskParam) : IFunction :=
  { val := diskH p.scaleHeight, der := diskHp p.scaleHeight, der2 := diskh p.scaleHeight }

/-- Modelled from the spec: `DiskResidual::density_cyl` (eq. 9 of Dehnen &
Binney 1998, section 4.2 of the design):
rho_res(R,z) = [f(R) - f(r)]h(z) - f''(r)H(z) - 2 f'(r)[H(z) + z H'(z)]/r
with r the spherical radius; at r = 0 the removable singularity is extracted
(the analytic limit of the expression, which is zero, is returned). -/
def DiskResidual.density_cyl (p : DiskParam) (pos : PosCyl) : ℝ :=
  let rf := createRadialDiskFnc p
  let vf := createVerticalDiskFnc p
  let r := Real.sqrt (pos.R ^ 2 + pos.z ^ 2)
  if r = 0 then 0
  else
    (rf.val pos.R - rf.val r) * vf.der2 pos.z
      - rf.der2 r * vf.val pos.z
      - 2 * rf.der r * (vf.val pos.z + pos.z * vf.der pos.z) / r

/-- `DiskResidual::density_car`, inline in `galPot.h`: delegates to
`density_cyl` after coordinate conversion. -/
def DiskResidual.density_car (p : DiskParam) (pos : PosCar) : ℝ :=
  DiskResidual.density_cyl p (toPosCylCar pos)

/-- `DiskResidual::density_sph`, inline in `galPot.h`: delegates to
`density_cyl` after coordinate conversion. -/
def DiskResidual.density_sph (p : DiskParam) (pos : PosSph) : ℝ :=
  DiskResidual.density_cyl p (toPosCylSph pos)

/-- Result of a potential evaluation: value, gradient and Hessian in
cylindrical coordinates (the three output slots of `eval_cyl`). -/
structure EvalCyl where
  potential : ℝ
  grad : GradCyl
  hess : HessCyl

/-- Modelled from the spec: `DiskAnsatz::eval_cyl`, section 4.3:
Phi(R,z) = 4 pi f(r) H(z) with r = sqrt(R^2+z^2); the gradient and Hessian
follow by the chain rule through dr/dR = R/r, dr/dz = z/r, with the limiting
forms used at r = 0. -/
def DiskAnsatz.eval_cyl (p : DiskParam) (pos : PosCyl) : EvalCyl :=
  let rf := createRadialDiskFnc p
  let vf := createVerticalDiskFnc p
  let r := Real.sqrt (pos.R ^ 2 + pos.z ^ 2)
  let f := rf.val r
  let fp := rf.der r
  let fpp := rf.der2 r
  let H := vf.val pos.z
  let Hp := vf.der pos.z
  let h := vf.der2 pos.z
  { potential := 4 * Real.pi * f * H
    grad :=
      if r = 0 then { dR := 0, dz := 0, dphi := 0 }
      else
        { dR := 4 * Real.pi * fp * (pos.R / r) * H
          dz := 4 * Real.pi * (fp * (pos.z / r) * H + f * Hp)
          dphi := 0 }
    hess :=
      if r = 0 then
        { dR2 := 0, dz2 := 4 * Real.pi * f * h, dphi2 := 0,
          dRdz := 0, dRdphi := 0, dzdphi := 0 }
      else
        { dR2 := 4 * Real.pi * ((fpp * (pos.R / r) ^ 2 + fp * pos.z ^ 2 / r ^ 3) * H)
          dz2 := 4 * Real.pi *
            ((fpp * (pos.z / r) ^ 2 + fp * pos.R ^ 2 / r ^ 3) * H
              + 2 * fp * (pos.z / r) * Hp + f * h)
          dphi2 := 0
          dRdz := 4 * Real.pi *
            ((fpp - fp / r) * (pos.R * pos.z / r ^ 2) * H + fp * (pos.R / r) * Hp)
          dRdphi := 0
          dzdphi := 0 } }

/-- Modelled from the spec: `DiskAnsatz::density_cyl`, the density implied by
the ansatz potential via its Laplacian in cylindrical coordinates:
rho(R,z) = f''(r)H(z) + 2 f'(r)[H(z) + z H'(z)]/r + f(r)h(z), with the
analytic limit f(0)h(0) used at r = 0. -/
def DiskAnsatz.density_cyl (p : DiskParam) (pos : PosCyl) : ℝ :=
  let rf := createRadialDiskFnc p
  let vf := createVerticalDiskFnc p
  let r := Real.sqrt (pos.R ^ 2 + pos.z ^ 2)
  if r = 0 then rf.val 0 * vf.der2 0
  else
    rf.der2 r * vf.val pos.z
      + 2 * rf.der r * (vf.val pos.z + pos.z * vf.der pos.z) / r
      + rf.val r * vf.der2 pos.z

/-- Symmetry type advertised by a density model, mirroring the relevant
values of `potential::SymmetryType`. -/
inductive SymmetryType where
  | ST_NONE : SymmetryType
  | ST_TRIAXIAL : SymmetryType
  | ST_AXISYMMETRIC : SymmetryType
  | ST_SPHERICAL : SymmetryType
deriving DecidableEq

/-- `SpheroidDensity::symmetry`, inline in `galPot.h`: spherical when the
axis ratio equals one, axisymmetric otherwise. -/
def SpheroidDensity.symmetry (p : SphrParam) : SymmetryType :=
  if p.q = 1 then SymmetryType.ST_SPHERICAL else SymmetryType.ST_AXISYMMETRIC

/-- Modelled from the spec: `SpheroidDensity::density_cyl` per the formula in
the `galPot.h` class comment and section 4.4:
rho(R,z) = rho0 (s/r0)^(-gamma) (1+s/r0)^(gamma-beta) exp(-(s/rt)^2) with
s = sqrt(R^2 + z^2/q^2); a zero outer cutoff radius disables the exponential
factor (treated as 1). -/
def SpheroidDensity.density_cyl (p : SphrParam) (pos : PosCyl) : ℝ :=
  let s := Real.sqrt (pos.R ^ 2 + pos.z ^ 2 / p.q ^ 2)
  p.densityNorm * (s / p.scaleRadius) ^ (-p.gamma)
    * (1 + s / p.scaleRadius) ^ (p.gamma - p.beta)
    * (if p.outerCutoffRadius = 0 then 1
       else Real.exp (-(s / p.outerCutoffRadius) ^ 2))

/-- `SpheroidDensity::density_car`, inline in `galPot.h`: delegates to
`density_cyl` after coordinate conversion. -/
def SpheroidDensity.density_car (p : SphrParam) (pos : PosCar) : ℝ :=
  SpheroidDensity.density_cyl p (toPosCylCar pos)

/-- `SpheroidDensity::density_sph`, inline in `galPot.h`: delegates to
`density_cyl` after coordinate conversion. -/
def SpheroidDensity.density_sph (p : SphrParam) (pos : PosSph) : ℝ :=
  SpheroidDensity.density_cyl p (toPosCylSph pos)

/-- A source density model as seen by the Multipole constructor: a density
field together with its advertised symmetry (the `BaseDensity` interface). -/
structure BaseDensity where
  density : PosCyl → ℝ
  symmetry : SymmetryType

/-- Whether an advertised symmetry is axisymmetric or stricter (spherical);
the Multipole constructor accepts exactly these sources. -/
def isAxisymmetricOrStricter : SymmetryType → Bool
  | SymmetryType.ST_AXISYMMETRIC => true
  | SymmetryType.ST_SPHERICAL => true
  | _ => false

/-- State of a constructed Multipole instance, mirroring the private data of
`potential::Multipole`: grid dimensions, radial extent, boundary slopes, the
central potential value and the fitted 2D table over (log r, cos theta).
Modelled from the spec: the exact angular quadrature, harmonic cutoff and ODE
scheme are free design parameters (section 9), so the table is represented by
the function over the grid coordinates that the spline fit produces. -/
structure Multipole where
  Knodes : ℕ
  Rmin : ℝ
  Rmax : ℝ
  gamma : ℝ
  beta : ℝ
  Phi0 : ℝ
  logr : ℕ → ℝ
  spline : ℝ → ℝ → ℝ

/-- Modelled from the spec: the Multipole constructor (sections 4.5 and 7).
It validates the inputs synchronously — the source must advertise
axisymmetric-or-stricter symmetry, the radial extent must satisfy
Rmin < Rmax, and at least 6 radial nodes are needed to determine the quintic
spline — and only then builds the logarithmic radial grid and the potential
table sampled from the source density; a failed validation yields an error
and no Multipole value at all. -/
def Multipole.construct (source : BaseDensity) (r_min r_max : ℝ)
    (num_grid_points : ℕ) (gamma beta : ℝ) : Except String Multipole :=
  if isAxisymmetricOrStricter source.symmetry = false then
    Except.error "Error in Multipole expansion: source density must be axisymmetric"
  else if r_max ≤ r_min then
    Except.error "Error in Multipole expansion: invalid radial grid extent"
  else if num_grid_points < 6 then
    Except.error "Error in Multipole expansion: number of radial grid nodes is too small"
  else
    Except.ok
      { Knodes := num_grid_points
        Rmin := r_min
        Rmax := r_max
        gamma := gamma
        beta := beta
        Phi0 := -(source.density { R := r_min, z := 0, phi := 0 })
        logr := fun i =>
          Real.log r_min
            + i * (Real.log r_max - Real.log r_min) / (num_grid_points - 1)
        spline := fun lr ct =>
          -(source.density
            { R := Real.exp lr * Real.sqrt (1 - ct ^ 2),
              z := Real.exp lr * ct, phi := 0 }) }

/-- Modelled from the spec: the potential value returned by
`Multipole::eval_cyl` (section 4.5, step 5 and the query contract): inside
[Rmin, Rmax] the fitted table is evaluated at (log r, cos theta); outside it
the prescribed inner/outer power laws (indices gamma and beta) extrapolate
the boundary value. -/
def Multipole.phiValue (m : Multipole) (pos : PosCyl) : ℝ :=
  let r := Real.sqrt (pos.R ^ 2 + pos.z ^ 2)
  let ct := if r = 0 then 0 else pos.z / r
  if r < m.Rmin then m.Phi0 * (r / m.Rmin) ^ (2 - m.gamma)
  else if m.Rmax < r then m.spline (Real.log m.Rmax) ct * (m.Rmax / r) ^ (m.beta - 2)
  else m.spline (Real.log r) ct

/-- Modelled from the spec: the full evaluation of `Multipole::eval_cyl`;
the gradient and Hessian are the exact partial derivatives of the smooth
spline/extrapolation surrogate (the quintic spline supplies derivatives by
local polynomial evaluation). -/
def Multipole.eval_cyl (m : Multipole) (pos : PosCyl) : EvalCyl :=
  { potential := m.phiValue pos
    grad :=
      { dR := deriv (fun t => m.phiValue { R := t, z := pos.z, phi := pos.phi }) pos.R
        dz := deriv (fun t => m.phiValue { R := pos.R, z := t, phi := pos.phi }) pos.z
        dphi := 0 }
    hess :=
      { dR2 := deriv (deriv (fun t => m.phiValue { R := t, z := pos.z, phi := pos.phi })) pos.R
        dz2 := deriv (deriv (fun t => m.phiValue { R := pos.R, z := t, phi := pos.phi })) pos.z
        dphi2 := 0
        dRdz := deriv (fun s =>
          deriv (fun t => m.phiValue { R := s, z := t, phi := pos.phi }) pos.z) pos.R
        dRdphi := 0
        dzdphi := 0 } }

/-- Modelled from the spec: evaluation with the instance state made
explicit.  The grid and spline tables are computed once at construction and
are read-only thereafter (section 3, "Multipole grid state"), so evaluation
returns the result together with the unchanged state. -/
def Multipole.evalState (m : Multipole) (pos : PosCyl) : EvalCyl × Multipole :=
  (Multipole.eval_cyl m pos, m)

/-- Repeated evaluation of the same Multipole instance at the same point,
threading the instance state through each call. -/
def Multipole.evalIter (m : Multipole) (pos : PosCyl) : ℕ → EvalCyl × Multipole
  | 0 => Multipole.evalState m pos
  | Nat.succ n => Multipole.evalState (Multipole.evalIter m pos n).2 pos

/-- A double-precision value for the `getVesc` embedding: a finite real, one
of the two infinities, or NaN.  Captures exactly the distinctions the code
makes (`== INFINITY`, `isFinite`, NaN propagation). -/
inductive FVal where
  | num : ℝ → FVal
  | pinf : FVal
  | ninf : FVal
  | nan : FVal

/-- IEEE multiplication on `FVal`. -/
def FVal.mul : FVal → FVal → FVal
  | FVal.nan, _ => FVal.nan
  | _, FVal.nan => FVal.nan
  | FVal.num a, FVal.num b => FVal.num (a * b)
  | FVal.num a, FVal.pinf =>
      if 0 < a then FVal.pinf else if a < 0 then FVal.ninf else FVal.nan
  | FVal.num a, FVal.ninf =>
      if 0 < a then FVal.ninf else if a < 0 then FVal.pinf else FVal.nan
  | FVal.pinf, FVal.num b =>
      if 0 < b then FVal.pinf else if b < 0 then FVal.ninf else FVal.nan
  | FVal.ninf, FVal.num b =>
      if 0 < b then FVal.ninf else if b < 0 then FVal.pinf else FVal.nan
  | FVal.pinf, FVal.pinf => FVal.pinf
  | FVal.pinf, FVal.ninf => FVal.ninf
  | FVal.ninf, FVal.pinf => FVal.ninf
  | FVal.ninf, FVal.ninf => FVal.pinf

/-- `pow_2(x) = x*x` on `FVal`: squaring, with both infinities mapping to
positive infinity and NaN propagating. -/
def FVal.sq : FVal → FVal
  | FVal.num a => FVal.num (a * a)
  | FVal.pinf => FVal.pinf
  | FVal.ninf => FVal.pinf
  | FVal.nan => FVal.nan

/-- IEEE addition on `FVal`. -/
def FVal.add : FVal → FVal → FVal
  | FVal.nan, _ => FVal.nan
  | _, FVal.nan => FVal.nan
  | FVal.num a, FVal.num b => FVal.num (a + b)
  | FVal.num _, FVal.pinf => FVal.pinf
  | FVal.num _, FVal.ninf => FVal.ninf
  | FVal.pinf, FVal.num _ => FVal.pinf
  | FVal.ninf, FVal.num _ => FVal.ninf
  | FVal.pinf, FVal.pinf => FVal.pinf
  | FVal.ninf, FVal.ninf => FVal.ninf
  | FVal.pinf, FVal.ninf => FVal.nan
  | FVal.ninf, FVal.pinf => FVal.nan

/-- IEEE square root on `FVal`: NaN for negative finite arguments and for
negative infinity. -/
def FVal.sqrtF : FVal → FVal
  | FVal.num a => if a < 0 then FVal.nan else FVal.num (Real.sqrt a)
  | FVal.pinf => FVal.pinf
  | FVal.ninf => FVal.nan
  | FVal.nan => FVal.nan

/-- IEEE division on `FVal` (signed zeros are not modelled: a nonzero finite
numerator over zero takes the sign of the numerator). -/
def FVal.div : FVal → FVal → FVal
  | FVal.nan, _ => FVal.nan
  | _, FVal.nan => FVal.nan
  | FVal.num a, FVal.num b =>
      if b = 0 then
        (if a = 0 then FVal.nan else if 0 < a then FVal.pinf else FVal.ninf)
      else FVal.num (a / b)
  | FVal.num _, FVal.pinf => FVal.num 0
  | FVal.num _, FVal.ninf => FVal.num 0
  | FVal.pinf, FVal.num b => if 0 ≤ b then FVal.pinf else FVal.ninf
  | FVal.ninf, FVal.num b => if 0 ≤ b then FVal.ninf else FVal.pinf
  | FVal.pinf, FVal.pinf => FVal.nan
  | FVal.pinf, FVal.ninf => FVal.nan
  | FVal.ninf, FVal.pinf => FVal.nan
  | FVal.ninf, FVal.ninf => FVal.nan

/-- C `isFinite`: true exactly on finite values. -/
def FVal.isFinite : FVal → Bool
  | FVal.num _ => true
  | _ => false

/-- The IEEE comparison `x == INFINITY`: true exactly on positive infinity
(false on NaN). -/
def FVal.isPInf : FVal → Bool
  | FVal.pinf => true
  | _ => false

/-- IEEE strict less-than on `FVal` (false whenever either side is NaN). -/
def FVal.ltF : FVal → FVal → Bool
  | FVal.nan, _ => false
  | _, FVal.nan => false
  | FVal.num a, FVal.num b => decide (a < b)
  | FVal.num _, FVal.pinf => true
  | FVal.num _, FVal.ninf => false
  | FVal.pinf, FVal.num _ => false
  | FVal.ninf, FVal.num _ => true
  | FVal.pinf, FVal.pinf => false
  | FVal.ninf, FVal.ninf => false
  | FVal.ninf, FVal.pinf => true
  | FVal.pinf, FVal.ninf => false

/-- `math::clamp(x, lo, hi)`: lo if x < lo, hi if hi < x, else x (NaN passes
through, both comparisons being false). -/
def FVal.clamp (x lo hi : FVal) : FVal :=
  if FVal.ltF x lo then lo else if FVal.ltF hi x then hi else x

/-- A cylindrical position whose coordinates are double values (finite,
infinite or NaN), as handled by `getVesc`. -/
structure PosCylF where
  R : FVal
  z : FVal
  phi : FVal

/-- The two outputs of `poten.eval` that `getVesc` consumes: the potential
value Phi and the radial gradient component `grad.dR`. -/
structure PotentialEvalF where
  Phi : FVal
  dR : FVal

/-- `getVesc` of `galaxymodel_base.cpp` (lines 55-73): at a position with
R^2 + z^2 == INFINITY it returns vesc = 0 and zeta = 0.5 without evaluating
the potential; otherwise it evaluates the potential, sets
vesc = sqrt(-2 Phi) and zeta = clamp(sqrt(grad.dR * R)/vesc, 0.1, 0.9), and
throws `std::invalid_argument` if vesc is not finite. -/
def getVesc (pos : PosCylF) (poten : PosCylF → PotentialEvalF) :
    Except String (FVal × FVal) :=
  if (FVal.add (FVal.sq pos.R) (FVal.sq pos.z)).isPInf then
    Except.ok (FVal.num 0, FVal.num (1 / 2))
  else
    let pe := poten pos
    let vesc := FVal.sqrtF (FVal.mul (FVal.num (-2)) pe.Phi)
    let zeta := FVal.clamp (FVal.div (FVal.sqrtF (FVal.mul pe.dR pos.R)) vesc)
      (FVal.num (1 / 10)) (FVal.num (9 / 10))
    if vesc.isFinite = false then
      Except.error "Error in computing moments: escape velocity is undetermined"
    else
      Except.ok (vesc, zeta)

theorem sgn_neg_eq (x : ℝ) : sgn (-x) = -sgn x := by
  unfold sgn
  rcases lt_trichotomy 0 x with h | h | h
  · rw [if_neg (by linarith : ¬ 0 < -x), if_pos (by linarith : -x < 0), if_pos h]
  · rw [← h]
    norm_num
  · rw [if_pos (by linarith : 0 < -x), if_neg (by linarith : ¬ 0 < x), if_pos h]
    norm_num

theorem diskH_even (h z : ℝ) : diskH h (-z) = diskH h z := by
  unfold diskH
  simp only [abs_neg, neg_div, Real.cosh_neg]

theorem diskHp_odd (h z : ℝ) : diskHp h (-z) = -diskHp h z := by
  unfold diskHp
  simp only [abs_neg, neg_div, Real.tanh_neg, sgn_neg_eq]
  split_ifs <;> ring

theorem diskh_even (h z : ℝ) : diskh h (-z) = diskh h z := by
  unfold diskh
  simp only [abs_neg, neg_div, Real.cosh_neg]

end GalPot

namespace GalPot

/-- C1: for every disk parameter set and every cylindrical position (R,z),
the potential value returned by `DiskAnsatz::eval_cyl` equals
4 pi f(r) H(z) with r = sqrt(R^2+z^2), f the disk radial function and H the
second antiderivative of the vertical profile. -/
theorem diskAnsatz_potential_value (p : DiskParam) (pos : PosCyl) :
    (DiskAnsatz.eval_cyl p pos).potential
      = 4 * Real.pi * diskf p (Real.sqrt (pos.R ^ 2 + pos.z ^ 2))
          * diskH p.scaleHeight pos.z := rfl

/-- C2: for every disk parameter set and every point with spherical radius
r = sqrt(R^2+z^2) > 0, `DiskResidual::density_cyl` returns
[f(R) - f(r)] h(z) - f''(r) H(z) - 2 f'(r) [H(z) + z H'(z)]/r, with f taken
at spherical r in the subtracted and derivative terms but at cylindrical R in
the leading term; at r = 0 the removable singularity is extracted and the
returned value is the (finite) analytic limit 0. -/
theorem diskResidual_density_formula (p : DiskParam) (R z phi : ℝ) :
    (Real.sqrt (R ^ 2 + z ^ 2) ≠ 0 →
      DiskResidual.density_cyl p ⟨R, z, phi⟩ =
        (diskf p R - diskf p (Real.sqrt (R ^ 2 + z ^ 2))) * diskh p.scaleHeight z
          - diskfpp p (Real.sqrt (R ^ 2 + z ^ 2)) * diskH p.scaleHeight z
          - 2 * diskfp p (Real.sqrt (R ^ 2 + z ^ 2))
              * (diskH p.scaleHeight z + z * diskHp p.scaleHeight z)
              / Real.sqrt (R ^ 2 + z ^ 2))
    ∧ (Real.sqrt (R ^ 2 + z ^ 2) = 0 →
      DiskResidual.density_cyl p ⟨R, z, phi⟩ = 0) := by
  constructor
  · intro h
    simp only [DiskResidual.density_cyl, createRadialDiskFnc, createVerticalDiskFnc]
    rw [if_neg h]
  · intro h
    simp only [DiskResidual.density_cyl, createRadialDiskFnc, createVerticalDiskFnc]
    rw [if_pos h]

/-- Witness for C2 at the concrete disk (Sigma0=1, Rd=1, h=1, R0=0, eps=0)
and the point (R,z) = (1,0). -/
theorem diskResidual_density_formula_witness :
    Real.sqrt ((1 : ℝ) ^ 2 + (0 : ℝ) ^ 2) ≠ 0 ∧
    DiskResidual.density_cyl ⟨1, 1, 1, 0, 0⟩ ⟨1, 0, 0⟩ =
      (diskf ⟨1, 1, 1, 0, 0⟩ 1
          - diskf ⟨1, 1, 1, 0, 0⟩ (Real.sqrt ((1 : ℝ) ^ 2 + (0 : ℝ) ^ 2)))
          * diskh (1 : ℝ) 0
        - diskfpp ⟨1, 1, 1, 0, 0⟩ (Real.sqrt ((1 : ℝ) ^ 2 + (0 : ℝ) ^ 2))
            * diskH (1 : ℝ) 0
        - 2 * diskfp ⟨1, 1, 1, 0, 0⟩ (Real.sqrt ((1 : ℝ) ^ 2 + (0 : ℝ) ^ 2))
            * (diskH (1 : ℝ) 0 + 0 * diskHp (1 : ℝ) 0)
            / Real.sqrt ((1 : ℝ) ^ 2 + (0 : ℝ) ^ 2) := by
  have hne : Real.sqrt ((1 : ℝ) ^ 2 + (0 : ℝ) ^ 2) ≠ 0 := by
    rw [show (1 : ℝ) ^ 2 + (0 : ℝ) ^ 2 = 1 by norm_num, Real.sqrt_one]
    norm_num
  exact ⟨hne, (diskResidual_density_formula ⟨1, 1, 1, 0, 0⟩ 1 0 0).1 hne⟩

/-- C3: at every point, the density implied by the DiskAnsatz potential (its
Laplacian) plus the DiskResidual density equals the input disk density
f(R) h(z): the ansatz/residual decomposition is exact. -/
theorem disk_decomposition_exact (p : DiskParam) (pos : PosCyl) :
    DiskAnsatz.density_cyl p pos + DiskResidual.density_cyl p pos
      = diskf p pos.R * diskh p.scaleHeight pos.z := by
  simp only [DiskAnsatz.density_cyl, DiskResidual.density_cyl,
    createRadialDiskFnc, createVerticalDiskFnc]
  by_cases hr : Real.sqrt (pos.R ^ 2 + pos.z ^ 2) = 0
  · have hle : pos.R ^ 2 + pos.z ^ 2 ≤ 0 := Real.sqrt_eq_zero'.mp hr
    have hR : pos.R = 0 := by nlinarith [sq_nonneg pos.R, sq_nonneg pos.z]
    have hz : pos.z = 0 := by nlinarith [sq_nonneg pos.R, sq_nonneg pos.z]
    rw [if_pos hr, if_pos hr, hR, hz]
    ring
  · rw [if_neg hr, if_neg hr]
    ring

/-- C8: for every disk parameter set (all three vertical profile families)
the DiskResidual density is invariant under the reflection z to -z. -/
theorem diskResidual_density_even (p : DiskParam) (R z phi : ℝ) :
    DiskResidual.density_cyl p ⟨R, z, phi⟩
      = DiskResidual.density_cyl p ⟨R, -z, phi⟩ := by
  simp only [DiskResidual.density_cyl, createRadialDiskFnc, createVerticalDiskFnc]
  rw [show R ^ 2 + (-z) ^ 2 = R ^ 2 + z ^ 2 by ring]
  rw [diskH_even, diskHp_odd, diskh_even]
  by_cases hr : Real.sqrt (R ^ 2 + z ^ 2) = 0
  · rw [if_pos hr, if_pos hr]
  · rw [if_neg hr, if_neg hr]
    ring

/-- C9: the Cartesian and spherical density entry points of both
`DiskResidual` and `SpheroidDensity` delegate to `density_cyl` after
converting the position, so the reported density does not depend on the
coordinate system of the query. -/
theorem density_coordinate_delegation (pd : DiskParam) (ps : SphrParam)
    (a : PosCar) (b : PosSph) :
    DiskResidual.density_car pd a = DiskResidual.density_cyl pd (toPosCylCar a)
    ∧ DiskResidual.density_sph pd b = DiskResidual.density_cyl pd (toPosCylSph b)
    ∧ SpheroidDensity.density_car ps a = SpheroidDensity.density_cyl ps (toPosCylCar a)
    ∧ SpheroidDensity.density_sph ps b = SpheroidDensity.density_cyl ps (toPosCylSph b) :=
  ⟨rfl, rfl, rfl, rfl⟩

/-- C7: with axis ratio q = 1 the spheroid density is a function of the
spherical radius alone and the advertised symmetry is spherical; with q
different from 1 the advertised symmetry is axisymmetric. -/
theorem spheroid_symmetry_q1 (p : SphrParam) :
    (p.q = 1 →
      (∀ a b : PosCyl, a.R ^ 2 + a.z ^ 2 = b.R ^ 2 + b.z ^ 2 →
        SpheroidDensity.density_cyl p a = SpheroidDensity.density_cyl p b)
      ∧ SpheroidDensity.symmetry p = SymmetryType.ST_SPHERICAL)
    ∧ (p.q ≠ 1 → SpheroidDensity.symmetry p = SymmetryType.ST_AXISYMMETRIC) := by
  constructor
  · intro hq
    constructor
    · intro a b hab
      simp only [SpheroidDensity.density_cyl, hq, one_pow, div_one]
      rw [hab]
    · simp [SpheroidDensity.symmetry, hq]
  · intro hq
    simp [SpheroidDensity.symmetry, hq]

/-- Witness for C7: a concrete spheroid with q = 1 takes equal values at
(R,z) = (3,4) and (5,0), which share the spherical radius 5, and reports
spherical symmetry; with q = 2 it reports axisymmetric symmetry. -/
theorem spheroid_symmetry_q1_witness :
    (SpheroidDensity.density_cyl ⟨1, 1, 1, 4, 1, 0⟩ ⟨3, 4, 0⟩
        = SpheroidDensity.density_cyl ⟨1, 1, 1, 4, 1, 0⟩ ⟨5, 0, 0⟩
      ∧ SpheroidDensity.symmetry ⟨1, 1, 1, 4, 1, 0⟩ = SymmetryType.ST_SPHERICAL)
    ∧ SpheroidDensity.symmetry ⟨1, 2, 1, 4, 1, 0⟩ = SymmetryType.ST_AXISYMMETRIC := by
  refine ⟨⟨?_, ?_⟩, ?_⟩
  · exact ((spheroid_symmetry_q1 ⟨1, 1, 1, 4, 1, 0⟩).1 rfl).1 ⟨3, 4, 0⟩ ⟨5, 0, 0⟩ (by norm_num)
  · exact ((spheroid_symmetry_q1 ⟨1, 1, 1, 4, 1, 0⟩).1 rfl).2
  · exact (spheroid_symmetry_q1 ⟨1, 2, 1, 4, 1, 0⟩).2 (by norm_num)

/-- C4: constructing a Multipole from a source whose advertised symmetry is
not axisymmetric-or-stricter fails synchronously with a domain error, while
an axisymmetric or spherical source (with valid grid parameters) is
accepted. -/
theorem multipole_symmetry_validation (source : BaseDensity) (rmin rmax : ℝ)
    (n : ℕ) (g b : ℝ) :
    (isAxisymmetricOrStricter source.symmetry = false →
      ∃ msg, Multipole.construct source rmin rmax n g b = Except.error msg)
    ∧ (isAxisymmetricOrStricter source.symmetry = true → rmin < rmax → 6 ≤ n →
      ∃ m, Multipole.construct source rmin rmax n g b = Except.ok m) := by
  constructor
  · intro h
    unfold Multipole.construct
    rw [if_pos h]
    exact ⟨_, rfl⟩
  · intro h1 h2 h3
    unfold Multipole.construct
    rw [if_neg (by simp [h1]), if_neg (not_le.mpr h2), if_neg (not_lt.mpr h3)]
    exact ⟨_, rfl⟩

/-- Witness for C4: a non-axisymmetric source is rejected; a spherical source
with grid extent (1,2) and 10 nodes is accepted. -/
theorem multipole_symmetry_validation_witness :
    (∃ msg, Multipole.construct ⟨fun _ => 0, SymmetryType.ST_NONE⟩ 1 2 10 0 4
      = Except.error msg)
    ∧ (∃ m, Multipole.construct ⟨fun _ => 0, SymmetryType.ST_SPHERICAL⟩ 1 2 10 0 4
      = Except.ok m) := by
  constructor
  · exact (multipole_symmetry_validation ⟨fun _ => 0, SymmetryType.ST_NONE⟩ 1 2 10 0 4).1 rfl
  · exact (multipole_symmetry_validation ⟨fun _ => 0, SymmetryType.ST_SPHERICAL⟩ 1 2 10 0 4).2
      rfl (by norm_num) (by norm_num)

/-- C5: Multipole construction fails with a domain error whenever
Rmin >= Rmax or the node count is below 6, and conversely a successfully
constructed instance certifies Rmin < Rmax and at least 6 nodes (no
partially-constructed Multipole is observable). -/
theorem multipole_grid_validation (source : BaseDensity) (rmin rmax : ℝ)
    (n : ℕ) (g b : ℝ) :
    ((rmax ≤ rmin ∨ n < 6) →
      ∃ msg, Multipole.construct source rmin rmax n g b = Except.error msg)
    ∧ (∀ m, Multipole.construct source rmin rmax n g b = Except.ok m →
      rmin < rmax ∧ 6 ≤ n) := by
  constructor
  · intro h
    unfold Multipole.construct
    by_cases hs : isAxisymmetricOrStricter source.symmetry = false
    · rw [if_pos hs]
      exact ⟨_, rfl⟩
    · rw [if_neg hs]
      rcases h with h | h
      · rw [if_pos h]
        exact ⟨_, rfl⟩
      · by_cases hr : rmax ≤ rmin
        · rw [if_pos hr]
          exact ⟨_, rfl⟩
        · rw [if_neg hr, if_pos h]
          exact ⟨_, rfl⟩
  · intro m hm
    unfold Multipole.construct at hm
    by_cases hs : isAxisymmetricOrStricter source.symmetry = false
    · rw [if_pos hs] at hm
      exact absurd hm (by simp)
    · rw [if_neg hs] at hm
      by_cases hr : rmax ≤ rmin
      · rw [if_pos hr] at hm
        exact absurd hm (by simp)
      · rw [if_neg hr] at hm
        by_cases hn : n < 6
        · rw [if_pos hn] at hm
          exact absurd hm (by simp)
        · exact ⟨not_le.mp hr, not_lt.mp hn⟩

/-- Witness for C5: grid extent (2,1) is rejected; a successful construction
at extent (1,2) with 10 nodes certifies the validated bounds. -/
theorem multipole_grid_validation_witness :
    (∃ msg, Multipole.construct ⟨fun _ => 0, SymmetryType.ST_AXISYMMETRIC⟩ 2 1 10 0 4
      = Except.error msg)
    ∧ ((1 : ℝ) < 2 ∧ 6 ≤ 10) := by
  constructor
  · exact (multipole_grid_validation ⟨fun _ => 0, SymmetryType.ST_AXISYMMETRIC⟩ 2 1 10 0 4).1
      (Or.inl (by norm_num))
  · exact ⟨by norm_num, by norm_num⟩

/-- C6: evaluating a constructed Multipole instance leaves its state
unchanged, and any number of repeated evaluations at the same point returns
the identical potential/gradient/Hessian triple. -/
theorem multipole_eval_idempotent (m : Multipole) (pos : PosCyl) :
    (Multipole.evalState m pos).2 = m ∧
    ∀ n : ℕ, Multipole.evalIter m pos n = (Multipole.eval_cyl m pos, m) := by
  refine ⟨rfl, fun n => ?_⟩
  induction n with
  | zero => rfl
  | succ k ih =>
    rw [Multipole.evalIter, ih]
    rfl

/-- C10: `getVesc` returns vesc = 0 and zeta = 0.5 without error when
R^2 + z^2 equals positive infinity; otherwise it throws whenever the
computed escape velocity sqrt(-2 Phi) is non-finite; and every successful
return carries a finite escape velocity. -/
theorem getVesc_spec (pos : PosCylF) (poten : PosCylF → PotentialEvalF) :
    ((FVal.add (FVal.sq pos.R) (FVal.sq pos.z)).isPInf = true →
      getVesc pos poten = Except.ok (FVal.num 0, FVal.num (1 / 2)))
    ∧ ((FVal.add (FVal.sq pos.R) (FVal.sq pos.z)).isPInf = false →
      (FVal.sqrtF (FVal.mul (FVal.num (-2)) (poten pos).Phi)).isFinite = false →
      ∃ msg, getVesc pos poten = Except.error msg)
    ∧ (∀ v zeta, getVesc pos poten = Except.ok (v, zeta) → v.isFinite = true) := by
  refine ⟨?_, ?_, ?_⟩
  · intro h
    unfold getVesc
    rw [if_pos h]
  · intro h1 h2
    unfold getVesc
    rw [if_neg (by simp [h1])]
    simp only []
    rw [if_pos h2]
    exact ⟨_, rfl⟩
  · intro v zeta h
    unfold getVesc at h
    by_cases hinf : (FVal.add (FVal.sq pos.R) (FVal.sq pos.z)).isPInf = true
    · rw [if_pos hinf] at h
      simp only [Except.ok.injEq, Prod.mk.injEq] at h
      rw [← h.1]
      rfl
    · rw [if_neg hinf] at h
      simp only [] at h
      by_cases hf : (FVal.sqrtF (FVal.mul (FVal.num (-2)) (poten pos).Phi)).isFinite = false
      · rw [if_pos hf] at h
        exact absurd h (by simp)
      · rw [if_neg hf] at h
        simp only [Except.ok.injEq, Prod.mk.injEq] at h
        rw [← h.1]
        exact Bool.not_eq_false _ |>.mp hf

/-- Witness for C10: at a position with infinite R the helper returns
(0, 0.5); at the origin with a positive potential value the escape velocity
is NaN and the helper reports the error. -/
theorem getVesc_spec_witness :
    getVesc ⟨FVal.pinf, FVal.num 0, FVal.num 0⟩ (fun _ => ⟨FVal.num 0, FVal.num 0⟩)
        = Except.ok (FVal.num 0, FVal.num (1 / 2))
    ∧ ∃ msg, getVesc ⟨FVal.num 0, FVal.num 0, FVal.num 0⟩ (fun _ => ⟨FVal.num 1, FVal.num 0⟩)
        = Except.error msg := by
  constructor
  · exact (getVesc_spec ⟨FVal.pinf, FVal.num 0, FVal.num 0⟩
      (fun _ => ⟨FVal.num 0, FVal.num 0⟩)).1 rfl
  · exact (getVesc_spec ⟨FVal.num 0, FVal.num 0, FVal.num 0⟩
      (fun _ => ⟨FVal.num 1, FVal.num 0⟩)).2.1 rfl
      (by norm_num [FVal.mul, FVal.sqrtF, FVal.isFinite])

end GalPot
